import Mathlib

/-!
Verification development for the nl80211scan repository (src/src/lib.rs,
src/examples/scan.rs).  The pure parsing and arithmetic functions of the
source (signal-quality conversion, TLV information-element walk) are
shallowly embedded as Lean functions; the effectful scan orchestration is
embedded as pure functions over an explicit environment (the decoded
messages each socket operation yields) together with an explicit list of
the protocol events in program order.
-/

namespace Nl80211Scan

/-! ## Signal quality (dbm_level_to_quality)

The source function operates on `f64`.  Every floating-point operation is
modelled here in exact rational arithmetic: each intermediate value of the
source pipeline on the claimed inputs is either exactly representable or
the claimed property is preserved by each (monotone, correctly-rounded)
float operation.  `f64::round` rounds half away from zero; `as u8` is the
saturating truncating cast. -/

/-- Rust f64 clamp: `v.clamp(lo, hi)` (with `lo ≤ hi`, no NaN). -/
def rustClamp (v lo hi : ℚ) : ℚ := min hi (max lo v)

/-- Rust `f64::round`: nearest integer, ties away from zero. -/
def roundQ (v : ℚ) : ℤ := if 0 ≤ v then ⌊v + 1 / 2⌋ else -⌊-v + 1 / 2⌋

/-- Rust saturating cast `f64 as u8`: truncate toward zero, clamp to
[0, 255].  For negative inputs truncation and floor differ but both are
clamped to 0, so floor-then-clamp is extensionally the same cast. -/
def f64_as_u8 (v : ℚ) : ℕ := (min 255 (max 0 ⌊v⌋)).toNat

/-- Embeds `dbm_level_to_quality` from src/src/lib.rs: divide the mBm
signal by 100, clamp into [-100, -40] dBm, rescale linearly into the
quality band, round, clamp into [0, 100] and cast to `u8`. -/
def dbm_level_to_quality (signal : ℤ) : ℕ :=
  let val0 : ℚ := (signal : ℚ) / 100
  let val1 : ℚ := rustClamp val0 (-100) (-40)
  let val2 : ℚ := |val1 + 40|
  let val3 : ℚ := 100 - (100 * val2) / 60
  let val4 : ℚ := (roundQ val3 : ℚ)
  let val5 : ℚ := rustClamp val4 0 100
  f64_as_u8 val5

/-- The clamp into [-100, -40] always lands in [-100, -40]. -/
lemma clamp_band_mem (v : ℚ) :
    -100 ≤ rustClamp v (-100) (-40) ∧ rustClamp v (-100) (-40) ≤ -40 := by
  unfold rustClamp
  exact ⟨le_min (by norm_num) (le_max_left _ _), min_le_left _ _⟩

/-- The clamp is monotone in its argument. -/
lemma rustClamp_mono {v w : ℚ} (lo hi : ℚ) (h : v ≤ w) :
    rustClamp v lo hi ≤ rustClamp w lo hi := by
  unfold rustClamp
  exact min_le_min (le_refl _) (max_le_max (le_refl _) h)

/-- dbm_level_to_quality is monotone non-decreasing on all of ℤ: every
stage of the pipeline is monotone (the absolute value is reached only on
non-positive arguments, where it is order-reversing, and it feeds a
subtraction). -/
lemma dbm_level_to_quality_mono {x y : ℤ} (h : x ≤ y) :
    dbm_level_to_quality x ≤ dbm_level_to_quality y := by
  unfold dbm_level_to_quality
  dsimp only
  have hdiv : (x : ℚ) / 100 ≤ (y : ℚ) / 100 := by
    have hxy : (x : ℚ) ≤ (y : ℚ) := by exact_mod_cast h
    linarith
  have hc := rustClamp_mono (-100) (-40) hdiv
  obtain ⟨hx1, hx2⟩ := clamp_band_mem ((x : ℚ) / 100)
  obtain ⟨hy1, hy2⟩ := clamp_band_mem ((y : ℚ) / 100)
  set cx := rustClamp ((x : ℚ) / 100) (-100) (-40) with hcx
  set cy := rustClamp ((y : ℚ) / 100) (-100) (-40) with hcy
  have hax : |cx + 40| = -(cx + 40) := abs_of_nonpos (by linarith)
  have hay : |cy + 40| = -(cy + 40) := abs_of_nonpos (by linarith)
  rw [hax, hay]
  set vx : ℚ := 100 - 100 * -(cx + 40) / 60 with hvx
  set vy : ℚ := 100 - 100 * -(cy + 40) / 60 with hvy
  have hv : vx ≤ vy := by rw [hvx, hvy]; linarith
  have hvx0 : 0 ≤ vx := by rw [hvx]; nlinarith
  have hvy0 : 0 ≤ vy := by rw [hvy]; nlinarith
  have hr : roundQ vx ≤ roundQ vy := by
    unfold roundQ
    rw [if_pos hvx0, if_pos hvy0]
    exact Int.floor_le_floor (by linarith)
  have hr2 : (roundQ vx : ℚ) ≤ (roundQ vy : ℚ) := by exact_mod_cast hr
  have hcl := rustClamp_mono 0 100 hr2
  unfold f64_as_u8
  exact Int.toNat_le_toNat
    (min_le_min (le_refl _) (max_le_max (le_refl _) (Int.floor_le_floor hcl)))

/-- dbm_level_to_quality never exceeds 100: the final clamp bounds the
value by 100 before the cast. -/
lemma dbm_level_to_quality_le_100 (x : ℤ) : dbm_level_to_quality x ≤ 100 := by
  unfold dbm_level_to_quality f64_as_u8
  set v : ℚ := (roundQ (100 - 100 * |rustClamp ((x : ℚ) / 100) (-100) (-40) + 40| / 60) : ℚ)
  have h1 : rustClamp v 0 100 ≤ 100 := min_le_left _ _
  have h2 : ⌊rustClamp v 0 100⌋ ≤ 100 := by
    have := Int.floor_le_floor h1
    simpa using this
  refine Int.toNat_le.mpr ?_
  have h3 : max 0 ⌊rustClamp v 0 100⌋ ≤ 100 := max_le (by norm_num) h2
  calc min 255 (max 0 ⌊rustClamp v 0 100⌋) ≤ max 0 ⌊rustClamp v 0 100⌋ :=
        min_le_right _ _
    _ ≤ 100 := h3

/-- C4: for every 32-bit signed integer x, dbm_level_to_quality x lies in
[0, 100]. -/
theorem dbm_level_to_quality_range (x : ℤ)
    (h1 : -(2 ^ 31) ≤ x) (h2 : x < 2 ^ 31) :
    0 ≤ dbm_level_to_quality x ∧ dbm_level_to_quality x ≤ 100 :=
  ⟨Nat.zero_le _, dbm_level_to_quality_le_100 x⟩

/-- Witness for C4 at the concrete input -12345. -/
theorem dbm_level_to_quality_range_witness :
    0 ≤ dbm_level_to_quality (-12345) ∧ dbm_level_to_quality (-12345) ≤ 100 :=
  dbm_level_to_quality_range (-12345) (by norm_num) (by norm_num)

/-- C5: dbm_level_to_quality maps the band endpoints exactly and saturates
outside the band: every input at or below -10000 yields 0 and every input
at or above -4000 yields 100 (covering the endpoint values -10000 ↦ 0 and
-4000 ↦ 100 and the saturation on both sides). -/
theorem dbm_level_to_quality_endpoints_and_saturation (x : ℤ) :
    (x ≤ -10000 → dbm_level_to_quality x = 0) ∧
    (-4000 ≤ x → dbm_level_to_quality x = 100) := by
  constructor
  · intro hx
    have h0 : (x : ℚ) / 100 ≤ -100 := by
      have : (x : ℚ) ≤ -10000 := by exact_mod_cast hx
      linarith
    have h1 : rustClamp ((x : ℚ) / 100) (-100) (-40) = -100 := by
      unfold rustClamp
      rw [max_eq_left h0, min_eq_right (by norm_num)]
    unfold dbm_level_to_quality
    dsimp only
    rw [h1]
    unfold roundQ rustClamp f64_as_u8
    norm_num [min_def, max_def, Int.floor_eq_iff]
  · intro hx
    have h0 : (-40 : ℚ) ≤ (x : ℚ) / 100 := by
      have : (-4000 : ℚ) ≤ (x : ℚ) := by exact_mod_cast hx
      linarith
    have h1 : rustClamp ((x : ℚ) / 100) (-100) (-40) = -40 := by
      unfold rustClamp
      rw [max_eq_right (by linarith), min_eq_left h0]
    unfold dbm_level_to_quality
    dsimp only
    rw [h1]
    unfold roundQ rustClamp f64_as_u8
    norm_num [min_def, max_def, Int.floor_eq_iff]
    rfl

/-- Witness for C5 at the concrete inputs -10001 (below the band) and
-3999 (above the band). -/
theorem dbm_level_to_quality_endpoints_and_saturation_witness :
    dbm_level_to_quality (-10001) = 0 ∧ dbm_level_to_quality (-3999) = 100 :=
  ⟨(dbm_level_to_quality_endpoints_and_saturation (-10001)).1 (by norm_num),
   (dbm_level_to_quality_endpoints_and_saturation (-3999)).2 (by norm_num)⟩

/-- C6: on the band [-10000, -4000] dbm_level_to_quality is monotone
non-decreasing. -/
theorem dbm_level_to_quality_monotone_on_band (x y : ℤ)
    (hx : -10000 ≤ x) (hxy : x ≤ y) (hy : y ≤ -4000) :
    dbm_level_to_quality x ≤ dbm_level_to_quality y :=
  dbm_level_to_quality_mono hxy

/-- Witness for C6 at the concrete pair -9000 ≤ -5000. -/
theorem dbm_level_to_quality_monotone_on_band_witness :
    dbm_level_to_quality (-9000) ≤ dbm_level_to_quality (-5000) :=
  dbm_level_to_quality_monotone_on_band (-9000) (-5000)
    (by norm_num) (by norm_num) (by norm_num)

/-! ## Information-element TLV walk (extract_element / extract_ssid)

The source walks a byte cursor: read a 1-byte element id, a 1-byte length,
then exactly `length` data bytes; any read past the end makes
`extract_element` return None and ends the walk.  The cursor is embedded
as the list of remaining bytes (each a `u8` value, here ℕ). -/

/-- Element id of the SSID information element (WLAN_EID_SSID). -/
def WLAN_EID_SSID : ℕ := 0

/-- Embeds `extract_element` from src/src/lib.rs: on success it yields the
element id, the element data, and the remaining cursor; it is None when
fewer than two header bytes remain or the declared length exceeds the
remaining bytes. -/
def extract_element (cursor : List ℕ) : Option ((ℕ × List ℕ) × List ℕ) :=
  match cursor with
  | eid :: size :: rest =>
      if size ≤ rest.length then some ((eid, rest.take size), rest.drop size)
      else none
  | _ => none

/-- Embeds `extract_ssid` from src/src/lib.rs: walk the elements and
return the data of the first element whose id is WLAN_EID_SSID, or the
empty byte vector when the walk ends without finding one.  The recursion
mirrors the source loop with the cursor state made explicit (the match
arms inline `extract_element`; the lemma `extract_ssid_step` below checks
the inlining against `extract_element` itself). -/
def extract_ssid : List ℕ → List ℕ
  | [] => []
  | [_] => []
  | eid :: size :: rest =>
      if size ≤ rest.length then
        if eid = WLAN_EID_SSID then rest.take size
        else extract_ssid (rest.drop size)
      else []
  termination_by cursor => cursor.length
  decreasing_by simp only [List.length_drop, List.length_cons]; omega

/-- One step of extract_ssid agrees with dispatching on extract_element,
exactly as the source loop does. -/
lemma extract_ssid_step (cursor : List ℕ) :
    extract_ssid cursor =
      match extract_element cursor with
      | none => []
      | some ((eid, data), rest) =>
          if eid = WLAN_EID_SSID then data else extract_ssid rest := by
  match cursor with
  | [] => simp [extract_ssid, extract_element]
  | [x] => simp [extract_ssid, extract_element]
  | eid :: size :: rest =>
      rw [extract_ssid, extract_element]
      by_cases h : size ≤ rest.length <;> simp [h]

/-- The full parse of the element stream: the list of (id, data) pairs the
walk reads before it stops (derived notion used to state claims about
"the first element with id 0"). -/
def parseElements : List ℕ → List (ℕ × List ℕ)
  | [] => []
  | [_] => []
  | eid :: size :: rest =>
      if size ≤ rest.length then
        (eid, rest.take size) :: parseElements (rest.drop size)
      else []
  termination_by cursor => cursor.length
  decreasing_by simp only [List.length_drop, List.length_cons]; omega

/-- Spec-side description of the walk result: the data of the first
parsed element with id 0, or the empty byte vector when there is none. -/
def firstSsidData (es : List (ℕ × List ℕ)) : List ℕ :=
  match es.find? (fun e => e.1 == 0) with
  | some e => e.2
  | none => []

/-- The walk stops because of a malformed stream: it reaches a position
with exactly one byte left (exhausted mid-header) or an element whose
declared length exceeds the remaining bytes, before any id-0 element. -/
def stopsTruncated : List ℕ → Bool
  | [] => false
  | [_] => true
  | eid :: size :: rest =>
      if size ≤ rest.length then
        if eid = WLAN_EID_SSID then false
        else stopsTruncated (rest.drop size)
      else true
  termination_by cursor => cursor.length
  decreasing_by simp only [List.length_drop, List.length_cons]; omega

/-- Head step of firstSsidData. -/
lemma firstSsidData_cons (e : ℕ × List ℕ) (es : List (ℕ × List ℕ)) :
    firstSsidData (e :: es) = if e.1 = 0 then e.2 else firstSsidData es := by
  unfold firstSsidData
  by_cases h : e.1 = 0
  · rw [List.find?_cons_of_pos _ (by simp [h]), if_pos h]
  · rw [List.find?_cons_of_neg _ (by simp [h]), if_neg h]

/-- extract_ssid computes firstSsidData of the parsed element stream. -/
lemma extract_ssid_eq_firstSsidData (cursor : List ℕ) :
    extract_ssid cursor = firstSsidData (parseElements cursor) := by
  have H : ∀ n (c : List ℕ), c.length ≤ n →
      extract_ssid c = firstSsidData (parseElements c) := by
    intro n
    induction n with
    | zero =>
        intro c hc
        have hnil : c = [] := List.length_eq_zero.mp (Nat.le_zero.mp hc)
        subst hnil
        simp [extract_ssid, parseElements, firstSsidData]
    | succ n ih =>
        intro c hc
        match c with
        | [] => simp [extract_ssid, parseElements, firstSsidData]
        | [x] => simp [extract_ssid, parseElements, firstSsidData]
        | eid :: size :: rest =>
            rw [extract_ssid, parseElements]
            by_cases h : size ≤ rest.length
            · rw [if_pos h, if_pos h, firstSsidData_cons]
              dsimp only
              by_cases he : eid = WLAN_EID_SSID
              · rw [if_pos he, if_pos (by simpa [WLAN_EID_SSID] using he)]
              · rw [if_neg he, if_neg (by simpa [WLAN_EID_SSID] using he)]
                exact ih _ (by
                  simp only [List.length_cons] at hc
                  simp only [List.length_drop]
                  omega)
            · rw [if_neg h, if_neg h]
              simp [firstSsidData]
  exact H cursor.length cursor (le_refl _)

/-- C7: the TLV walk returns the data of the first parsed element whose
element id is 0, and on the byte buffer [0,3,'f','o','o',1,2,0,0] it
yields the SSID bytes "foo" (102, 111, 111). -/
theorem extract_ssid_first_zero_element :
    (∀ cursor : List ℕ,
      extract_ssid cursor = firstSsidData (parseElements cursor)) ∧
    extract_ssid [0, 3, 102, 111, 111, 1, 2, 0, 0] = [102, 111, 111] := by
  refine ⟨extract_ssid_eq_firstSsidData, ?_⟩
  rw [extract_ssid]
  norm_num [WLAN_EID_SSID]

/-- C8: whenever the walk stops because a declared element length exceeds
the remaining bytes or the cursor is exhausted mid-header (before any id-0
element), extract_ssid stops cleanly and reports no SSID: it returns the
empty byte vector.  (extract_ssid is a total function, so the walk can
never fault.) -/
theorem truncated_walk_reports_no_ssid (cursor : List ℕ)
    (h : stopsTruncated cursor = true) : extract_ssid cursor = [] := by
  have H : ∀ n (c : List ℕ), c.length ≤ n → stopsTruncated c = true →
      extract_ssid c = [] := by
    intro n
    induction n with
    | zero =>
        intro c hc htr
        have hnil : c = [] := List.length_eq_zero.mp (Nat.le_zero.mp hc)
        subst hnil
        simp [stopsTruncated] at htr
    | succ n ih =>
        intro c hc htr
        match c with
        | [] => simp [stopsTruncated] at htr
        | [x] => simp [extract_ssid]
        | eid :: size :: rest =>
            rw [extract_ssid]
            rw [stopsTruncated] at htr
            by_cases hs : size ≤ rest.length
            · rw [if_pos hs]
              rw [if_pos hs] at htr
              by_cases he : eid = WLAN_EID_SSID
              · rw [if_pos he] at htr
                exact absurd htr (by simp)
              · rw [if_neg he] at htr ⊢
                exact ih _ (by
                  simp only [List.length_cons] at hc
                  simp only [List.length_drop]
                  omega) htr
            · rw [if_neg hs]
  exact H cursor.length cursor (le_refl _) h

/-- Witness for C8 at the concrete buffer [1, 5, 0], whose single element
declares 5 data bytes with only one byte remaining. -/
theorem truncated_walk_reports_no_ssid_witness :
    stopsTruncated [1, 5, 0] = true ∧ extract_ssid [1, 5, 0] = [] :=
  ⟨by rw [stopsTruncated]; norm_num,
   truncated_walk_reports_no_ssid [1, 5, 0] (by rw [stopsTruncated]; norm_num)⟩

/-- C10: an absent SSID element and a present SSID element of declared
length 0 are indistinguishable at the extract_ssid interface: a buffer
whose parsed elements contain no id-0 element and a buffer whose first
id-0 element carries no data both yield the same empty byte vector. -/
theorem absent_vs_empty_ssid_indistinguishable (buf1 buf2 : List ℕ)
    (h1 : ∀ e ∈ parseElements buf1, e.1 ≠ 0)
    (h2 : (parseElements buf2).find? (fun e => e.1 == 0) = some (0, [])) :
    extract_ssid buf1 = extract_ssid buf2 ∧ extract_ssid buf1 = [] := by
  have e1 : extract_ssid buf1 = [] := by
    rw [extract_ssid_eq_firstSsidData]
    unfold firstSsidData
    rw [List.find?_eq_none.mpr (by intro e he; simpa using h1 e he)]
  have e2 : extract_ssid buf2 = [] := by
    rw [extract_ssid_eq_firstSsidData]
    unfold firstSsidData
    rw [h2]
  exact ⟨e1.trans e2.symm, e1⟩

/-- Witness for C10: buffer [1,2,0,0] parses to one element with id 1 (no
id-0 element at all), buffer [1,1,7,0,0] parses to an id-1 element
followed by an id-0 element of declared length 0; extract_ssid returns []
on both. -/
theorem absent_vs_empty_ssid_indistinguishable_witness :
    extract_ssid [1, 2, 0, 0] = extract_ssid [1, 1, 7, 0, 0] ∧
    extract_ssid [1, 2, 0, 0] = [] :=
  absent_vs_empty_ssid_indistinguishable [1, 2, 0, 0] [1, 1, 7, 0, 0]
    (by
      rw [parseElements]
      norm_num
      rw [parseElements]
      norm_num)
    (by
      rw [parseElements]
      norm_num
      rw [parseElements]
      norm_num [parseElements])

/-! ## Scan orchestration (pub async fn scan)

The effectful function is embedded as pure functions over an explicit
environment: the decoded messages each successful socket operation
yields.  Its printed per-record output (signal, quality, ssid line) is
modelled as the list of station reports the call produces, and the order
of its socket effects is modelled as an explicit event list in program
order. -/

/-- Modelled from the spec: the nl80211 command tags exchanged by the scan
flow (spec section 6).  The repository declares them in an enums module
that is not under src/; src/src/lib.rs only uses the variants.  The tags
GET_INTERFACE, TRIGGER_SCAN, NEW_SCAN_RESULTS, scan-aborted and GET_SCAN
are distinct commands. -/
inductive Nl80211Cmd where
  | getInterface
  | triggerScan
  | newScanResults
  | scanAborted
  | getScan
deriving DecidableEq

/-- Interface type enumeration of src/src/lib.rs. -/
inductive InterfaceType where
  | unspecified
  | adhoc
  | station
  | ap
  | apVlan
  | wds
  | monitor
  | meshPoint
  | p2pClient
  | p2pGo
  | p2pDevice
  | ocb
  | nan
deriving DecidableEq

/-- Interface record of src/src/lib.rs (MAC address as its 6 bytes). -/
structure Interface where
  name : String
  index : ℕ
  iftype : InterfaceType
  wiphy : ℕ
  wdev : ℕ
  mac_address : List ℕ
deriving DecidableEq

/-- One decoded GET_SCAN dump message, after the BSS attribute lookups
succeed: the signal strength in mBm and the information-element blob. -/
structure BssMsg where
  signal_mbm : ℤ
  information_elements : List ℕ
deriving DecidableEq

/-- One per-record report the scan loop prints: the signal, the computed
quality and the extracted ssid bytes. -/
structure StationReport where
  signal_mbm : ℤ
  quality : ℕ
  ssid : List ℕ
deriving DecidableEq

/-- Transport-level failure kinds of the scan call (spec section 7);
in an environment where every socket operation succeeds none is
produced. -/
inductive ScanError where
  | setupFailure
  | sendFailure
  | recvFailure
deriving DecidableEq

/-- What the source loop derives and prints for one GET_SCAN message. -/
def reportOfBss (m : BssMsg) : StationReport :=
  ⟨m.signal_mbm, dbm_level_to_quality m.signal_mbm,
   extract_ssid m.information_elements⟩

/-- Station reports of one interface iteration of `scan`: given the
command tags carried by the multicast batch and the decoded GET_SCAN dump
messages, the source fetches and reports every dump record if some
multicast payload carries NEW_SCAN_RESULTS, and reports nothing (printing
"Already scanning") otherwise. -/
def scanIterationStations (mcast : List Nl80211Cmd) (dump : List BssMsg) :
    List StationReport :=
  if mcast.any (fun c => c == Nl80211Cmd.newScanResults)
  then dump.map reportOfBss
  else []

/-- Result of one interface iteration of `scan` when every socket
operation succeeds: the source never turns the already-scanning branch
into an error, so the iteration returns Ok with its (possibly empty)
report list. -/
def scanIterationResult (mcast : List Nl80211Cmd) (dump : List BssMsg) :
    Except ScanError (List StationReport) :=
  .ok (scanIterationStations mcast dump)

/-- Socket effects of one interface iteration of `scan`, in the order the
source performs them (src/src/lib.rs lines 168-268): connect a command
socket, send TRIGGER_SCAN, receive the ack, connect the listener socket,
resolve and join the "scan" multicast group, receive the multicast batch,
and (only when notified) connect again, send GET_SCAN and receive the
dump. -/
inductive ScanEvent where
  | connectSocket
  | sendTriggerScan
  | recvTriggerAck
  | resolveScanMulticastGroup
  | joinScanMulticastGroup
  | recvMulticastBatch
  | sendGetScanDump
  | recvScanResultsDump
deriving DecidableEq

/-- Event list of one interface iteration, in program order. -/
def scanIterationEvents (notified : Bool) : List ScanEvent :=
  [.connectSocket, .sendTriggerScan, .recvTriggerAck,
   .connectSocket, .resolveScanMulticastGroup, .joinScanMulticastGroup,
   .recvMulticastBatch] ++
  (if notified then [.connectSocket, .sendGetScanDump, .recvScanResultsDump]
   else [])

/-- Indices of the interfaces the source triggers a scan on: it iterates
over every GET_INTERFACE dump message that decodes to an Interface and
runs the whole trigger/await/fetch sequence for each; no interface-name
parameter exists and nothing selects by name. -/
def scanTriggeredIndices (msgs : List (Option Interface)) : List ℕ :=
  (msgs.filterMap id).map Interface.index

/-- C1 (divergence evaluation): the scan operation of src/src/lib.rs has
no interface-name parameter; it triggers a scan on every interface the
GET_INTERFACE dump decodes (here indices 3 and 7), and its per-record
output is printed rather than returned (its return type carries no
stations), unlike the `scan("wlan0") -> stations` surface that
src/examples/scan.rs expects. -/
theorem scan_triggers_every_decoded_interface :
    scanTriggeredIndices
      [some ⟨"wlan0", 3, InterfaceType.station, 0, 0, [0, 1, 2, 3, 4, 5]⟩,
       none,
       some ⟨"eth0", 7, InterfaceType.station, 1, 1, [6, 7, 8, 9, 10, 11]⟩]
      = [3, 7] := rfl

/-- C2: when the multicast batch carries no NEW_SCAN_RESULTS tag (for
example only an already-scanning/aborted tag), the iteration terminates
as a non-error with an empty report list. -/
theorem scan_already_scanning_returns_ok_empty
    (mcast : List Nl80211Cmd) (dump : List BssMsg)
    (h : ∀ c ∈ mcast, c ≠ Nl80211Cmd.newScanResults) :
    scanIterationResult mcast dump = .ok [] := by
  unfold scanIterationResult scanIterationStations
  have hany : mcast.any (fun c => c == Nl80211Cmd.newScanResults) = false := by
    rw [List.any_eq_false]
    intro c hc
    simpa using h c hc
  rw [hany]
  rfl

/-- Witness for C2: a multicast batch carrying only the scan-aborted tag
yields Ok with the empty report list, with a non-empty dump available. -/
theorem scan_already_scanning_returns_ok_empty_witness :
    scanIterationResult [Nl80211Cmd.scanAborted]
      [⟨-5000, [0, 4, 72, 111, 109, 101]⟩] = .ok [] :=
  scan_already_scanning_returns_ok_empty _ _ (by decide)

/-- C3 (divergence evaluation): in the source's event order the
TRIGGER_SCAN send strictly precedes the join of the "scan" multicast
group, in both the notified and the already-scanning run — the opposite
of the claimed join-before-trigger ordering. -/
theorem trigger_scan_precedes_multicast_join :
    ∀ notified : Bool,
      (scanIterationEvents notified).indexOf ScanEvent.sendTriggerScan <
        (scanIterationEvents notified).indexOf ScanEvent.joinScanMulticastGroup := by
  decide

/-- C9 (divergence evaluation): a scan-result record whose information
elements contain no id-0 element is still reported by the source (with
quality computed and an empty ssid byte vector), not dropped from the
output. -/
theorem scan_reports_record_without_ssid_element :
    scanIterationResult [Nl80211Cmd.newScanResults] [⟨-5000, [1, 2, 0, 0]⟩] =
      .ok [⟨-5000, 83, []⟩] := by
  have hq : dbm_level_to_quality (-5000) = 83 := by
    unfold dbm_level_to_quality rustClamp roundQ f64_as_u8
    norm_num [min_def, max_def, Int.floor_eq_iff]
    rfl
  have hs : extract_ssid [1, 2, 0, 0] = [] := by
    rw [extract_ssid]
    norm_num [WLAN_EID_SSID]
    rw [extract_ssid]
  unfold scanIterationResult scanIterationStations reportOfBss
  simp [hq, hs]

end Nl80211Scan
